import Mathlib

/-!
Verification of specification claims about the Ren-C interpreter runtime.

Each section shallowly embeds one component of the C source:

* `Expand_Series` from %m-pools.c (series data expansion)
* `T_Typeset` from %t-typeset.c (typeset generic actions)
* `MAKE_Money` / `TO_Money` / `T_Money` from %t-money.c
* `Equal_Context` from %t-object.c
* `IS_TRUTHY` from %sys-value.h
* `Retrigger_Append_As_Write` from %t-port.c
* the body-assembly portion of SAVE from %mezz-save.r
* the console driver loop of `main` from %host-main.c

Machine series are modelled at element granularity: every byte offset the C
code computes (`start = index * wide`, `extra = delta * wide`,
`size = len * wide`) is a whole multiple of the element width `wide`, so a
`List` of elements with offsets in element units carries exactly the same
information as the byte buffer, and "byte-for-byte identical" coincides with
element-list equality.
-/

/-! ## Series subsystem (%m-pools.c, %sys-rebser.h)

A `REBSER` node either holds its data inline (non-dynamic) or owns a dynamic
allocation with head slack ("bias") before the data pointer.  The model keeps

* `biasRegion` — the bias slack in front of the data pointer
  (`SER_BIAS` is its length; empty for non-dynamic series);
* `data`       — the allocation from the data pointer on
  (`SER_REST`, the capacity in units, is its length);
* `len`        — the logical length `SER_LEN`, with the series invariant
  `len + 1 ≤ rest` leaving room for the terminator.
-/

inductive SeriesError where
  | pastEnd
  | lockedSeries
deriving DecidableEq

structure REBSER (α : Type) where
  dynamic : Bool
  fixedSize : Bool
  biasRegion : List α
  data : List α
  len : Nat
deriving DecidableEq

def SER_BIAS {α : Type} (s : REBSER α) : Nat := s.biasRegion.length

def SER_REST {α : Type} (s : REBSER α) : Nat := s.data.length

/-- TERM_SERIES writes the terminator into the slot one past the logical
length (an END cell for arrays, a zero element for binaries/strings). -/
def TERM_SERIES {α : Type} [Inhabited α] (l : List α) (n : Nat) : List α :=
  l.set n default

/-- Modelled from the spec: `Did_Series_Data_Alloc` (the series-data
allocator, not among the provided sources) hands the series a fresh
power-of-two-rounded dynamic allocation large enough for the requested unit
count plus the terminator.  The model's memory is unbounded, so allocation
always succeeds. -/
def seriesDataAllocRest (units : Nat) : Nat :=
  2 ^ Nat.clog 2 (units + 1)

/-- Prior_Expand bookkeeping: `x` stays 1 unless the series was found in the
`Prior_Expand` list of recently expanded series, in which case the request
is roughly doubled (`x = SER_LEN(s) + delta + 1`).  `needed` is
`SER_LEN(s) + delta`. -/
def Prior_Expand_x (prior_expand : Bool) (needed : Nat) : Nat :=
  if prior_expand then needed + 1 else 1

/-- Expand_Series from %m-pools.c: grow the series data by `delta` units at
`index`, preserving content.  Three strategies, in the source's order: the
head-insertion bias slide, the in-place memmove when capacity suffices, and
a fresh allocation otherwise (which is where the FIXED_SIZE check lives).
`prior_expand` models whether the series was found in the `Prior_Expand`
list, which doubles the requested size (`x`). -/
def Expand_Series {α : Type} [Inhabited α] (prior_expand : Bool)
    (s : REBSER α) (index delta : Nat) : Except SeriesError (REBSER α) :=
  -- (delta & 0x80000000) tests bit 31 of the 32-bit REBCNT, i.e. delta ≥ 2^31
  if 2 ^ 31 ≤ delta then .error .pastEnd
  else if delta = 0 then .ok s
  else if s.dynamic = true ∧ index = 0 ∧ delta ≤ SER_BIAS s then
    -- head insertion optimization: slide the data pointer back by delta
    .ok { s with
      biasRegion := s.biasRegion.take (SER_BIAS s - delta),
      data := s.biasRegion.drop (SER_BIAS s - delta) ++ s.data,
      len := s.len + delta }
  else if s.len + delta + 1 ≤ SER_REST s then
    -- no expansion needed: memmove the tail portion up by delta, then
    -- re-terminate.  Bytes [0, start+extra) and [size+extra, rest) keep
    -- their old values; [start+extra, size+extra) receives [start, size).
    .ok { s with
      data := TERM_SERIES
        (s.data.take (index + delta)
          ++ (s.data.drop index).take (s.len - index)
          ++ s.data.drop (s.len + delta))
        (s.len + delta),
      len := s.len + delta }
  else if s.fixedSize = true then .error .lockedSeries
  else
    -- insufficient capacity: allocate a new dynamic buffer and copy the old
    -- content around the insertion point.  `x` is 1, or the doubling amount
    -- `SER_LEN(s) + delta + 1` for a recently-expanded series.
    .ok { dynamic := true, fixedSize := s.fixedSize,
          biasRegion := [],
          data := TERM_SERIES
            (s.data.take index
              ++ List.replicate delta default
              ++ (s.data.drop index).take (s.len - index)
              ++ List.replicate
                  (seriesDataAllocRest
                      (s.len + delta + Prior_Expand_x prior_expand (s.len + delta))
                    - (s.len + delta)) default)
            (s.len + delta),
          len := s.len + delta }

/-! Helper lemmas: writing the terminator into slot `n` does not disturb the
regions `[0, m)` (for `m ≤ n`) and `[k, k + j)` (for `k + j ≤ n`). -/

theorem take_of_set_le {α : Type} (a : α) :
    ∀ (l : List α) (n m : Nat), m ≤ n → (l.set n a).take m = l.take m
  | [], _, _, _ => by simp
  | x :: xs, n, 0, _ => by simp
  | x :: xs, 0, m + 1, h => by omega
  | x :: xs, n + 1, m + 1, h => by
      simp only [List.set_cons_succ, List.take_succ_cons]
      rw [take_of_set_le a xs n m (by omega)]

theorem drop_take_of_set_le {α : Type} (a : α) :
    ∀ (l : List α) (n k j : Nat), k + j ≤ n →
      ((l.set n a).drop k).take j = (l.drop k).take j
  | [], _, _, _, _ => by simp
  | x :: xs, n, 0, j, h => by
      simpa using take_of_set_le a (x :: xs) n j (by omega)
  | x :: xs, 0, k + 1, j, h => by omega
  | x :: xs, n + 1, k + 1, j, h => by
      simp only [List.set_cons_succ, List.drop_succ_cons]
      exact drop_take_of_set_le a xs n k j (by omega)

/-- Claim C1: for every series of logical length L, every insertion index
`i ≤ L`, and every delta `d` for which the allocation succeeds (the model's
allocator always succeeds, so success is exactly a non-error return),
`Expand_Series` leaves the elements at positions `[0, i)` unchanged, moves
the elements originally at `[i, L)` to `[i + d, L + d)` identically, and the
series reports length `L + d` afterwards.  `hterm` is the standing series
invariant that the allocation holds the content plus a terminator. -/
theorem Expand_Series_preserves_content {α : Type} [Inhabited α]
    (prior_expand : Bool) (s : REBSER α) (i d : Nat) (s2 : REBSER α)
    (hi : i ≤ s.len) (hterm : s.len + 1 ≤ SER_REST s)
    (hok : Expand_Series prior_expand s i d = .ok s2) :
    s2.len = s.len + d
    ∧ s2.data.take i = s.data.take i
    ∧ (s2.data.drop (i + d)).take (s.len - i)
        = (s.data.drop i).take (s.len - i) := by
  obtain ⟨dyn, fx, br, dd, L⟩ := s
  simp only [SER_REST] at hterm
  simp only at hi hok ⊢
  unfold Expand_Series at hok
  split_ifs at hok with h31 h0 hbias hcap hfix
  · -- delta = 0
    injection hok with hs2
    subst hs2
    subst h0
    exact ⟨by simp, rfl, rfl⟩
  · -- head insertion: i = 0, d ≤ bias
    obtain ⟨hdyn, hi0, hd⟩ := hbias
    simp only [SER_BIAS] at hd
    injection hok with hs2
    subst hs2
    subst hi0
    refine ⟨rfl, by simp, ?_⟩
    simp only [SER_BIAS, Nat.zero_add, List.drop_zero]
    rw [@List.drop_left' _ (br.drop (br.length - d)) dd d (by simp; omega)]
  · -- in-place memmove
    simp only [SER_BIAS, SER_REST] at hcap hok
    injection hok with hs2
    subst hs2
    refine ⟨rfl, ?_, ?_⟩
    · simp only [TERM_SERIES]
      rw [take_of_set_le _ _ _ _ (by omega)]
      rw [@List.take_append_of_le_length _
            (dd.take (i + d) ++ (dd.drop i).take (L - i)) (dd.drop (L + d)) i
            (by simp; omega)]
      rw [@List.take_append_of_le_length _
            (dd.take (i + d)) ((dd.drop i).take (L - i)) i (by simp; omega)]
      rw [List.take_take]
      congr 1
      omega
    · simp only [TERM_SERIES]
      rw [drop_take_of_set_le _ _ _ _ _ (by omega)]
      rw [@List.drop_append_of_le_length _
            (dd.take (i + d) ++ (dd.drop i).take (L - i)) (dd.drop (L + d))
            (i + d) (by simp; omega)]
      rw [@List.drop_left' _ (dd.take (i + d)) ((dd.drop i).take (L - i))
            (i + d) (by simp; omega)]
      rw [@List.take_append_of_le_length _
            ((dd.drop i).take (L - i)) (dd.drop (L + d)) (L - i)
            (by simp; omega)]
      rw [List.take_take]
      congr 1
      omega
  · -- fresh allocation
    injection hok with hs2
    subst hs2
    refine ⟨rfl, ?_, ?_⟩
    · simp only [TERM_SERIES]
      rw [take_of_set_le _ _ _ _ (by omega)]
      rw [@List.take_append_of_le_length _
            (dd.take i ++ List.replicate d default ++ (dd.drop i).take (L - i))
            _ i (by simp; omega)]
      rw [@List.take_append_of_le_length _
            (dd.take i ++ List.replicate d default) ((dd.drop i).take (L - i))
            i (by simp; omega)]
      rw [@List.take_append_of_le_length _
            (dd.take i) (List.replicate d default) i (by simp; omega)]
      rw [List.take_take]
      congr 1
      omega
    · simp only [TERM_SERIES]
      rw [drop_take_of_set_le _ _ _ _ _ (by omega)]
      rw [@List.drop_append_of_le_length _
            (dd.take i ++ List.replicate d default ++ (dd.drop i).take (L - i))
            _ (i + d) (by simp; omega)]
      rw [@List.drop_left' _ (dd.take i ++ List.replicate d default)
            ((dd.drop i).take (L - i)) (i + d) (by simp; omega)]
      rw [@List.take_append_of_le_length _
            ((dd.drop i).take (L - i)) _ (L - i) (by simp; omega)]
      rw [List.take_take]
      congr 1
      omega

/-- Example series used to exercise the in-place expansion path: a dynamic
series of four slots holding two live elements. -/
def expandDemoSeries : REBSER Nat :=
  { dynamic := true, fixedSize := false, biasRegion := [],
    data := [10, 20, 30, 40], len := 2 }

/-- Result of expanding `expandDemoSeries` at index 1 by 1 element: the gap
slot keeps stale content, the tail slot is re-terminated. -/
def expandDemoResult : REBSER Nat :=
  { dynamic := true, fixedSize := false, biasRegion := [],
    data := [10, 20, 20, 0], len := 3 }

/-- Witness for C1 at a concrete input. -/
theorem Expand_Series_preserves_content_witness :
    expandDemoResult.len = expandDemoSeries.len + 1
    ∧ expandDemoResult.data.take 1 = expandDemoSeries.data.take 1
    ∧ (expandDemoResult.data.drop (1 + 1)).take (expandDemoSeries.len - 1)
        = (expandDemoSeries.data.drop 1).take (expandDemoSeries.len - 1) :=
  Expand_Series_preserves_content false expandDemoSeries 1 1 expandDemoResult
    (by decide) (by decide) rfl

/-- Fixed-size series with spare capacity: two allocated slots beyond the
single live element. -/
def fixedSpareDemo : REBSER Nat :=
  { dynamic := true, fixedSize := true, biasRegion := [],
    data := [10, 0, 0], len := 1 }

/-- Counterexample to claim C7 as stated: this series is marked fixed-size
and the delta is positive, yet `Expand_Series` succeeds (the capacity check
precedes the FIXED_SIZE check, which only guards the new-allocation path). -/
theorem Expand_Series_fixed_size_can_succeed :
    fixedSpareDemo.fixedSize = true
    ∧ Expand_Series false fixedSpareDemo 1 1
        = .ok { dynamic := true, fixedSize := true, biasRegion := [],
                data := [10, 0, 0], len := 2 } := by
  constructor
  · rfl
  · rfl

/-- Claim C7 (amended): a fixed-size series fails with the locked-series
error exactly when the expansion cannot be satisfied within the existing
allocation — neither the head-bias slide nor the spare capacity suffices, so
a new allocation would be required. -/
theorem Expand_Series_locked_iff {α : Type} [Inhabited α]
    (prior_expand : Bool) (s : REBSER α) (i d : Nat)
    (hfix : s.fixedSize = true) (h0 : 0 < d) (h31 : d < 2 ^ 31) :
    Expand_Series prior_expand s i d = .error .lockedSeries ↔
      ¬(s.dynamic = true ∧ i = 0 ∧ d ≤ SER_BIAS s)
      ∧ ¬(s.len + d + 1 ≤ SER_REST s) := by
  unfold Expand_Series
  split_ifs with a b c e
  · omega
  · omega
  · exact iff_of_false (by simp) (fun h => h.1 c)
  · exact iff_of_false (by simp) (fun h => h.2 e)
  · exact iff_of_true rfl ⟨c, e⟩

/-- Non-dynamic fixed-size series whose two slots cannot absorb a two-element
expansion. -/
def fixedFullDemo : REBSER Nat :=
  { dynamic := false, fixedSize := true, biasRegion := [],
    data := [0, 0], len := 1 }

/-- Witness for the amended C7 at a concrete input. -/
theorem Expand_Series_locked_iff_witness :
    Expand_Series false fixedFullDemo 0 2 = .error .lockedSeries :=
  (Expand_Series_locked_iff false fixedFullDemo 0 2 rfl (by omega)
    (by omega)).mpr ⟨by decide, by decide⟩

/-! ## Typeset datatype (%t-typeset.c, %sys-value.h)

Typeset bits are a 64-bit mask, one bit per fundamental type.  The
table-generated `enum Reb_Kind` assigns every fundamental type a distinct
nonzero index below 64; the particular numbers are immaterial to the claims,
so the model fixes small distinct representatives for the kinds it needs.
`VAL_TYPE` reads a cell's own kind byte (for a DATATYPE! cell that is
`REB_DATATYPE`), while `VAL_TYPE_KIND` reads the type a DATATYPE! cell
represents from its payload. -/

def REB_INTEGER : Nat := 1

def REB_BLOCK : Nat := 2

def REB_TYPESET : Nat := 3

def REB_DATATYPE : Nat := 4

/-- FLAGIT_KIND from %sys-value.h: the 64-bit flag for a type index. -/
def FLAGIT_KIND (t : Nat) : Nat := 1 <<< t

/-- TYPE_CHECK: whether a type's bit is set in a typeset's bitmask. -/
def TYPE_CHECK (bits : Nat) (t : Nat) : Bool := bits &&& FLAGIT_KIND t ≠ 0

/-- Cells a typeset action can receive as its second argument. -/
inductive TsVal where
  | typeset (bits : Nat)
  | datatype (kind : Nat)
  | integer (i : Int)
deriving DecidableEq

/-- VAL_TYPE of such a cell: the kind byte of the cell itself, never the
payload of a DATATYPE!. -/
def TsVal.VAL_TYPE : TsVal → Nat
  | .typeset _ => REB_TYPESET
  | .datatype _ => REB_DATATYPE
  | .integer _ => REB_INTEGER

/-- VAL_TYPE_KIND: the type a DATATYPE! cell represents (its payload). -/
def TsVal.VAL_TYPE_KIND : TsVal → Nat
  | .datatype k => k
  | v => v.VAL_TYPE

inductive TsVerb where
  | find
  | union
  | intersect
  | difference
  | complement
deriving DecidableEq

inductive TsError where
  | invalid
  | illegalAction
deriving DecidableEq

/-- Outcomes of `REBTYPE(Typeset)`: FIND returns a BAR! (truthy) or the null
signal; the set operations return the mutated typeset. -/
inductive TsOut where
  | bar
  | nulled
  | typeset (bits : Nat)
deriving DecidableEq

/-- T_Typeset, the generic-action dispatcher `REBTYPE(Typeset)` from
%t-typeset.c.  `val` is the typeset bitmask of the first argument; `arg` is
the second argument cell when present.  The source promotes a bare DATATYPE!
argument of the set operations by writing
`VAL_TYPESET_BITS(arg) = FLAGIT_KIND(VAL_TYPE(arg))` — note `VAL_TYPE`, the
cell's own kind byte, where the FIND branch reads `VAL_TYPE_KIND(arg)`. -/
def T_Typeset (verb : TsVerb) (val : Nat) (arg : Option TsVal) :
    Except TsError TsOut :=
  match verb with
  | .find =>
    match arg with
    | some (.datatype k) =>
      if TYPE_CHECK val ((TsVal.datatype k).VAL_TYPE_KIND)
      then .ok .bar
      else .ok .nulled
    | _ => .error .invalid
  | .union | .intersect | .difference =>
    match arg with
    | some a =>
      match a with
      | .datatype _ =>
        -- VAL_TYPESET_BITS(arg) = FLAGIT_KIND(VAL_TYPE(arg))
        let argBits := FLAGIT_KIND a.VAL_TYPE
        .ok (.typeset (match verb with
          | .union => val ||| argBits
          | .intersect => val &&& argBits
          | _ => val ^^^ argBits))
      | .typeset b =>
        .ok (.typeset (match verb with
          | .union => val ||| b
          | .intersect => val &&& b
          | _ => val ^^^ b))
      | _ => .error .invalid
    | none => .error .invalid
  | .complement =>
    -- ~ on the 64-bit REBU64 bitmask
    .ok (.typeset (val ^^^ (2 ^ 64 - 1)))

/-- Claim C2: evaluation at the failing input.  UNION of the typeset
containing only INTEGER! with the bare DATATYPE! value for BLOCK! ors in the
bit of DATATYPE! itself (the promotion reads `VAL_TYPE(arg)`, which is
`REB_DATATYPE` for every DATATYPE! cell), not the bit of the represented
BLOCK! type that the claim requires; the FIND branch, by contrast, does
consult the represented type. -/
theorem T_Typeset_union_datatype_promotion_bug :
    T_Typeset .union (FLAGIT_KIND REB_INTEGER) (some (.datatype REB_BLOCK))
      = .ok (.typeset (FLAGIT_KIND REB_INTEGER ||| FLAGIT_KIND REB_DATATYPE))
    ∧ T_Typeset .union (FLAGIT_KIND REB_INTEGER) (some (.datatype REB_BLOCK))
      ≠ .ok (.typeset (FLAGIT_KIND REB_INTEGER ||| FLAGIT_KIND REB_BLOCK))
    ∧ T_Typeset .find (FLAGIT_KIND REB_INTEGER ||| FLAGIT_KIND REB_BLOCK)
        (some (.datatype REB_BLOCK)) = .ok .bar := by
  refine ⟨rfl, ?_, rfl⟩
  intro h
  have h2 := Except.ok.inj h
  revert h2
  decide

/-! ## MONEY! datatype (%t-money.c)

The MONEY! payload is a "deci", an unnormalized fixed-precision decimal.
The deci math routines themselves are vendored third-party code outside this
repository's sources; per the spec they provide exact decimal arithmetic
("without binary floating-point rounding"), so a deci amount is modelled as
an exact rational.  The scanner-facing conversions that %t-money.c merely
calls (`string_to_deci`, `binary_to_deci`) are kept opaque, packaged in
`DeciOps`. -/

/-- Modelled from the spec: the interfaces of the vendored deci conversion
routines that MAKE_Money delegates to.  `string_to_deci` yields `none` when
the scan consumes nothing or stops before the end of the text (the
`end == bp or *end != 0` check). -/
structure DeciOps where
  string_to_deci : List Char → Option ℚ
  binary_to_deci : List Nat → ℚ

/-- Modelled from the spec: vendored exact integer-to-deci conversion. -/
def int_to_deci (i : Int) : ℚ := (i : ℚ)

/-- Modelled from the spec: vendored double-to-deci conversion; the model
carries the decimal payload as an exact rational already, so the conversion
is the identity. -/
def decimal_to_deci (q : ℚ) : ℚ := q

/-- Modelled from the spec: vendored exact deci arithmetic. -/
def deci_add (a b : ℚ) : ℚ := a + b

def deci_subtract (a b : ℚ) : ℚ := a - b

def deci_multiply (a b : ℚ) : ℚ := a * b

/-- Modelled from the spec: vendored exact deci division; a zero divisor
raises, every other quotient is exact. -/
def deci_divide (a b : ℚ) : Option ℚ :=
  if b = 0 then none else some (a / b)

/-- Argument cells relevant to MONEY! construction and arithmetic. -/
inductive RVal where
  | integer (i : Int)
  | decimal (q : ℚ)
  | percent (q : ℚ)
  | money (amount : ℚ)
  | text (s : List Char)
  | binary (b : List Nat)
  | logic (b : Bool)
  | block
  | void
deriving DecidableEq

inductive MoneyError where
  | badMake
  | invalid
  | mathArgs
  | zeroDivide
  | illegalAction
deriving DecidableEq

/-- Bin_To_Money_May_Fail from %t-money.c: up to 12 bytes of binary data are
copied right-justified into a zeroed 12-byte buffer and handed to the
vendored `binary_to_deci`. -/
def Bin_To_Money_May_Fail (ops : DeciOps) (val : RVal) :
    Except MoneyError ℚ :=
  match val with
  | .binary b =>
    .ok (ops.binary_to_deci
      (List.replicate (12 - min b.length 12) 0 ++ b.take (min b.length 12)))
  | _ => .error .invalid

/-- MAKE_Money from %t-money.c: construction sources are integer,
decimal/percent, money (identity), text (scanned, `MAX_SCAN_MONEY` guard and
trailing-garbage check folded into the opaque scan), binary, and logic. -/
def MAKE_Money (ops : DeciOps) (arg : RVal) : Except MoneyError ℚ :=
  match arg with
  | .integer i => .ok (int_to_deci i)
  | .decimal q => .ok (decimal_to_deci q)
  | .percent q => .ok (decimal_to_deci q)
  | .money m => .ok m
  | .text s =>
    match ops.string_to_deci s with
    | some q => .ok q
    | none => .error .badMake
  | .binary _ => Bin_To_Money_May_Fail ops arg
  | .logic b => .ok (int_to_deci (if b then 1 else 0))
  | _ => .error .badMake

/-- TO_Money from %t-money.c simply forwards to MAKE_Money. -/
def TO_Money (ops : DeciOps) (arg : RVal) : Except MoneyError ℚ :=
  MAKE_Money ops arg

/-- Math_Arg_For_Money from %t-money.c: coerce the second argument of a
money arithmetic verb to a deci. -/
def Math_Arg_For_Money (arg : RVal) : Except MoneyError ℚ :=
  match arg with
  | .money m => .ok m
  | .integer i => .ok (int_to_deci i)
  | .decimal q => .ok (decimal_to_deci q)
  | .percent q => .ok (decimal_to_deci q)
  | _ => .error .mathArgs

/-- Money verbs embedded here (ROUND, REMAINDER and EVEN?/ODD? dispatch to
further vendored deci routines and are outside the claims). -/
inductive MoneyVerb where
  | add
  | subtract
  | multiply
  | divide
  | negate
  | absolute
deriving DecidableEq

/-- T_Money, the generic-action dispatcher `REBTYPE(Money)` from %t-money.c.
Every arithmetic branch ends by stamping the output cell's header with
`REB_MONEY` (`RESET_VAL_HEADER(D_OUT, REB_MONEY)`), so the result is always
a MONEY! value. -/
def T_Money (verb : MoneyVerb) (val : ℚ) (arg : RVal) :
    Except MoneyError RVal :=
  match verb with
  | .add => do
    let a ← Math_Arg_For_Money arg
    .ok (.money (deci_add val a))
  | .subtract => do
    let a ← Math_Arg_For_Money arg
    .ok (.money (deci_subtract val a))
  | .multiply => do
    let a ← Math_Arg_For_Money arg
    .ok (.money (deci_multiply val a))
  | .divide => do
    let a ← Math_Arg_For_Money arg
    match deci_divide val a with
    | some q => .ok (.money q)
    | none => .error .zeroDivide
  | .negate => .ok (.money (-val))
  | .absolute => .ok (.money |val|)

/-- Counterexample to claim C3 as stated: dividing the money amount 10 by
the money amount 10 yields the MONEY! value whose amount is 1 — a
money-typed result, not the plain (integer or decimal) number 1. -/
theorem T_Money_divide_result_is_money :
    T_Money .divide 10 (.money 10) = .ok (.money 1)
    ∧ RVal.money 1 ≠ RVal.integer 1
    ∧ RVal.money 1 ≠ RVal.decimal 1 := by
  refine ⟨?_, by decide, by decide⟩
  show Except.ok (RVal.money (10 / 10 : ℚ)) = Except.ok (RVal.money 1)
  norm_num

/-- Claim C3 (amended): dividing one MONEY! value by another produces a
MONEY! result whose amount is the exact unitless quotient of the two
amounts; in particular $10 / $10 is the money value $1, whose amount is the
number 1 (money is unitless, so no currency tag is involved, but the result
carries the MONEY! type). -/
theorem T_Money_divide_money (a b : ℚ) (hb : b ≠ 0) :
    T_Money .divide a (.money b) = .ok (.money (a / b)) := by
  simp [T_Money, Math_Arg_For_Money, deci_divide, hb, Bind.bind, Except.bind]

/-- Witness for the amended C3 at the concrete input $10 / $10. -/
theorem T_Money_divide_money_witness :
    T_Money .divide 10 (.money 10) = .ok (.money (10 / 10 : ℚ)) :=
  T_Money_divide_money 10 10 (by norm_num)

/-- Claim C10: MAKE MONEY! (and TO MONEY!) of a LOGIC! value always
succeeds, giving the amount 1 for true and 0 for false, whatever the opaque
vendored conversions do. -/
theorem MAKE_Money_logic (ops : DeciOps) (b : Bool) :
    MAKE_Money ops (.logic b) = .ok (if b then 1 else 0)
    ∧ TO_Money ops (.logic b) = MAKE_Money ops (.logic b) := by
  constructor
  · cases b <;> simp [MAKE_Money, int_to_deci]
  · rfl

/-! ## Context equality (%t-object.c)

A context pairs a keylist (typesets carrying a canon symbol and a hidden
flag) with a varlist of values.  `Equal_Context` walks both in order,
skipping hidden keys on either side; `Cmp_Value` on two keys compares their
typeset bits (the symbol does not participate), the canon symbols are
compared separately, and `Cmp_Value` on the two variables compares the
values — all modelled as decidable equality on the respective payloads. -/

structure CtxField where
  canon : Nat
  typeset : Nat
  hidden : Bool
  value : Int
deriving DecidableEq

def Is_Param_Hidden (k : CtxField) : Bool := k.hidden

/-- Field-by-field walk of `Equal_Context`: the main loop runs while both
keys are short of their END markers (`goto no_advance` skips hidden keys on
one side without advancing the other), and the two trailing loops accept a
leftover suffix only when it is entirely hidden. -/
def Equal_Fields (l1 l2 : List CtxField) : Bool :=
  match l1, l2 with
  | [], l2 => l2.all Is_Param_Hidden
  | l1, [] => l1.all Is_Param_Hidden
  | k1 :: r1, k2 :: r2 =>
    if Is_Param_Hidden k1 then Equal_Fields r1 (k2 :: r2)
    else if Is_Param_Hidden k2 then Equal_Fields (k1 :: r1) r2
    else
      (k1.typeset == k2.typeset) && (k1.canon == k2.canon)
        && (k1.value == k2.value) && Equal_Fields r1 r2
termination_by l1.length + l2.length

/-- Visible (non-hidden) fields of a keylist, in keylist order. -/
def visibleFields (l : List CtxField) : List CtxField :=
  l.filter (fun k => !Is_Param_Hidden k)

structure REBCTX where
  kind : Nat
  fields : List CtxField
deriving DecidableEq

/-- Equal_Context from %t-object.c: same concrete kind, then the pointer
identity short circuit (`f1 == f2`), then the field walk. -/
def Equal_Context (val arg : REBCTX) : Bool :=
  if arg.kind ≠ val.kind then false
  else if val = arg then true
  else Equal_Fields val.fields arg.fields

theorem Equal_Fields_iff (l1 l2 : List CtxField) :
    Equal_Fields l1 l2 = true ↔ visibleFields l1 = visibleFields l2 := by
  induction l1, l2 using Equal_Fields.induct with
  | case1 l2 =>
      rw [Equal_Fields.eq_def]
      unfold visibleFields
      simp only [List.filter_nil, List.all_eq_true, Is_Param_Hidden]
      rw [eq_comm, List.filter_eq_nil_iff]
      simp
  | case2 l1 hne =>
      cases l1 with
      | nil => exact absurd rfl hne
      | cons k r =>
          rw [Equal_Fields.eq_def]
          unfold visibleFields
          simp only [List.filter_nil, List.all_eq_true, Is_Param_Hidden]
          rw [List.filter_eq_nil_iff]
          simp
  | case3 k1 r1 k2 r2 h1 ih =>
      rw [Equal_Fields.eq_def]
      simp only [if_pos h1, ih]
      unfold visibleFields
      rw [List.filter_cons]
      simp [h1]
  | case4 k1 r1 k2 r2 h1 h2 ih =>
      rw [Equal_Fields.eq_def]
      simp only [if_neg h1, if_pos h2, ih]
      unfold visibleFields
      rw [List.filter_cons, List.filter_cons]
      simp [h1, h2]
  | case5 k1 r1 k2 r2 h1 h2 ih =>
      rw [Equal_Fields.eq_def]
      simp only [if_neg h1, if_neg h2]
      simp only [Bool.and_eq_true, beq_iff_eq, ih]
      unfold visibleFields
      rw [List.filter_cons, List.filter_cons]
      simp only [Bool.not_eq_true] at h1 h2
      simp only [h1, h2, Bool.not_false, if_pos]
      obtain ⟨c1, t1, hh1, v1⟩ := k1
      obtain ⟨c2, t2, hh2, v2⟩ := k2
      simp only [Is_Param_Hidden] at h1 h2
      subst h1
      subst h2
      simp only [List.cons.injEq, CtxField.mk.injEq, and_true, true_and]
      tauto

theorem Equal_Context_iff (v a : REBCTX) :
    Equal_Context v a = true
      ↔ (v.kind = a.kind ∧ visibleFields v.fields = visibleFields a.fields) := by
  unfold Equal_Context
  split_ifs with hne hid
  · exact iff_of_false (by simp) (fun h => hne h.1.symm)
  · subst hid
    exact iff_of_true rfl ⟨rfl, rfl⟩
  · rw [Equal_Fields_iff]
    have hk : v.kind = a.kind := by omega
    simp [hk]

/-- Claim C4: for two contexts of the same concrete kind, EQUAL? holds
exactly when the visible (non-hidden) fields agree pairwise in canon symbol,
typeset and value in the same sequence order; a genuine reordering of the
visible fields of one side (a permutation producing a different sequence)
makes the comparison false; and inserting a hidden field anywhere on one
side leaves the comparison result unchanged. -/
theorem Equal_Context_spec (c1 c2 : REBCTX) (hk : c1.kind = c2.kind) :
    (Equal_Context c1 c2 = true
      ↔ visibleFields c1.fields = visibleFields c2.fields)
    ∧ ((visibleFields c1.fields).Perm (visibleFields c2.fields) →
        visibleFields c1.fields ≠ visibleFields c2.fields →
        Equal_Context c1 c2 = false)
    ∧ (∀ (h : CtxField) (pre post : List CtxField), h.hidden = true →
        Equal_Context c1 { kind := c2.kind, fields := pre ++ h :: post }
          = Equal_Context c1 { kind := c2.kind, fields := pre ++ post }) := by
  refine ⟨?_, ?_, ?_⟩
  · rw [Equal_Context_iff]
    simp [hk]
  · intro _ hne
    rcases hb : Equal_Context c1 c2 with _ | _
    · rfl
    · exact absurd ((Equal_Context_iff c1 c2).mp hb).2 hne
  · intro h pre post hh
    rw [Bool.eq_iff_iff]
    rw [Equal_Context_iff, Equal_Context_iff]
    have hvis : visibleFields (pre ++ h :: post) = visibleFields (pre ++ post) := by
      unfold visibleFields
      rw [List.filter_append, List.filter_append, List.filter_cons]
      simp [Is_Param_Hidden, hh]
    simp [hvis]

/-- Two-visible-field object used by the C4 witness. -/
def ctxDemoA : REBCTX :=
  { kind := 1,
    fields := [{ canon := 11, typeset := 5, hidden := false, value := 10 },
               { canon := 12, typeset := 5, hidden := false, value := 20 }] }

/-- Same visible fields as `ctxDemoA` with an extra hidden `self`-like field
in the middle. -/
def ctxDemoB : REBCTX :=
  { kind := 1,
    fields := [{ canon := 11, typeset := 5, hidden := false, value := 10 },
               { canon := 99, typeset := 9, hidden := true, value := 0 },
               { canon := 12, typeset := 5, hidden := false, value := 20 }] }

/-- Witness for C4 at a concrete pair of contexts. -/
theorem Equal_Context_spec_witness :
    Equal_Context ctxDemoA ctxDemoB = true
      ↔ visibleFields ctxDemoA.fields = visibleFields ctxDemoB.fields :=
  (Equal_Context_spec ctxDemoA ctxDemoB rfl).1

/-! ## Truthiness (%sys-value.h)

A cell's header carries VALUE_FLAG_FALSEY; the `Init_Xxx` constructors set
it for exactly the three conditionally false states (logic false, BLANK!,
and the nulled cell), and never for VOID!.  `IS_TRUTHY` tests the flag
first and only then errors on VOID!. -/

def REB_LOGIC : Nat := 20

def REB_BLANK : Nat := 21

def REB_VOID : Nat := 22

/-- REB_MAX_NULLED: the "type" of a nulled cell, one past the real types. -/
def REB_MAX_NULLED : Nat := 64

inductive CellError where
  | voidConditional
deriving DecidableEq

/-- Header-relevant portion of a cell: the kind byte and the FALSEY flag. -/
structure Cell where
  kind : Nat
  falsey : Bool
deriving DecidableEq

/-- Init_Logic: logical falsehood lives in the header flag. -/
def Init_Logic (b : Bool) : Cell := { kind := REB_LOGIC, falsey := !b }

/-- Init_Blank sets VALUE_FLAG_FALSEY. -/
def Init_Blank : Cell := { kind := REB_BLANK, falsey := true }

/-- Init_Void sets no FALSEY flag: VOID! is neither truthy nor falsey. -/
def Init_Void : Cell := { kind := REB_VOID, falsey := false }

/-- Init_Nulled sets VALUE_FLAG_FALSEY on the nulled cell. -/
def Init_Nulled : Cell := { kind := REB_MAX_NULLED, falsey := true }

def IS_VOID (v : Cell) : Bool := v.kind == REB_VOID

/-- IS_TRUTHY from %sys-value.h: falsey flag means false; a void fails with
the Void-Conditional error; everything else is true. -/
def IS_TRUTHY (v : Cell) : Except CellError Bool :=
  if v.falsey then .ok false
  else if IS_VOID v then .error .voidConditional
  else .ok true

/-- Claim C5: testing the truthiness of the void value fails with the
Void-Conditional error, while logic false, blank and the nulled (absent)
state all yield false without error. -/
theorem IS_TRUTHY_void_and_falsey :
    IS_TRUTHY Init_Void = .error .voidConditional
    ∧ IS_TRUTHY (Init_Logic false) = .ok false
    ∧ IS_TRUTHY Init_Blank = .ok false
    ∧ IS_TRUTHY Init_Nulled = .ok false :=
  ⟨rfl, rfl, rfl, rfl⟩

/-! ## PORT! APPEND retriggering (%t-port.c)

`Retrigger_Append_As_Write` receives APPEND's frame (the port, the value to
append, and the /PART /ONLY /DUP /LINE refinements) and either fails or
retriggers `write/append port value`. -/

/-- Kinds the APPEND value argument can have. -/
inductive AppendValKind where
  | binary
  | text
  | block
  | integer
  | file
deriving DecidableEq

/-- Argument frame of APPEND as read by INCLUDE_PARAMS_OF_APPEND. -/
structure AppendFrame where
  value : AppendValKind
  part : Bool
  only : Bool
  dup : Bool
  line : Bool
deriving DecidableEq

inductive PortOutcome where
  | writeAppend
  | errInvalid
  | errBadRefines
deriving DecidableEq

/-- Retrigger_Append_As_Write from %t-port.c. -/
def Retrigger_Append_As_Write (f : AppendFrame) : PortOutcome :=
  if ¬(f.value = .binary ∨ f.value = .text ∨ f.value = .block) then
    .errInvalid
  else if f.part then .errBadRefines
  else if f.only then .errBadRefines
  else if f.dup then .errBadRefines
  else if f.line then .errBadRefines
  else .writeAppend

/-- Claim C8: APPEND on a PORT! becomes WRITE/APPEND exactly for BINARY!,
TEXT! or BLOCK! values with no refinement; any of /PART /ONLY /DUP /LINE on
an accepted value kind fails with the bad-refines error instead of being
ignored, and a value of any other kind is rejected as invalid. -/
theorem Retrigger_Append_As_Write_spec (f : AppendFrame) :
    (Retrigger_Append_As_Write f = .writeAppend
      ↔ ((f.value = .binary ∨ f.value = .text ∨ f.value = .block)
          ∧ f.part = false ∧ f.only = false ∧ f.dup = false ∧ f.line = false))
    ∧ ((f.value = .binary ∨ f.value = .text ∨ f.value = .block) →
        (f.part = true ∨ f.only = true ∨ f.dup = true ∨ f.line = true) →
        Retrigger_Append_As_Write f = .errBadRefines)
    ∧ (¬(f.value = .binary ∨ f.value = .text ∨ f.value = .block) →
        Retrigger_Append_As_Write f = .errInvalid) := by
  obtain ⟨v, p, o, d, l⟩ := f
  unfold Retrigger_Append_As_Write
  refine ⟨?_, ?_, ?_⟩
  · split_ifs <;> simp_all
  · intro hv hr
    split_ifs <;> simp_all
  · intro hv
    split_ifs <;> simp_all

/-- Witness for C8: appending a TEXT! with /PART fails with bad-refines. -/
theorem Retrigger_Append_As_Write_spec_witness :
    Retrigger_Append_As_Write
      { value := .text, part := true, only := false, dup := false,
        line := false } = .errBadRefines :=
  (Retrigger_Append_As_Write_spec
    { value := .text, part := true, only := false, dup := false,
      line := false }).2.1 (Or.inr (Or.inl rfl)) (Or.inl rfl)

/-! ## SAVE body assembly (%mezz-save.r)

After the header is normalized, SAVE molds the value, appends one newline,
and then runs a `case/all` ladder in source order: checksum over the
(uncompressed) binary body, gzip when compression was requested, base-64
encoding when `method = 'script`, and the `length:` back-patch with the
final encoded byte count.  CHECKSUM/SECURE, GZIP and the base-64 mold are
natives outside these sources and stay opaque functions over byte lists;
MOLD's output is the `molded` parameter. -/

/-- Byte code of the newline SAVE appends to the molded body. -/
def saveNewline : Nat := 10

/-- Observable artifacts of SAVE's body assembly. -/
structure SaveOut where
  checksum : Option (List Nat)
  lengthField : Option Nat
  output : List Nat
deriving DecidableEq

/-- Body-assembly steps of `save` (%mezz-save.r lines 116-151), for the
generic (non-codec) path. -/
def save_body (molded : List Nat)
    (secure_hash gz base64 : List Nat → List Nat)
    (checksumReq compressOpt methodScript lengthReq : Bool) : SaveOut :=
  -- data: either [mold/all/only :value] [mold/only :value] ... append data newline
  let data0 := molded ++ [saveNewline]
  -- case/all [ tmp: try find header-data 'checksum [... checksum/secure data ...]
  let ck := if checksumReq then some (secure_hash data0) else none
  -- compress [data: gzip data]
  let data1 := if compressOpt then gz data0 else data0
  -- method = 'script [data: mold64 data]
  let data2 := if methodScript then base64 data1 else data1
  -- length [change find/tail header-data 'length (length of data)]
  { checksum := ck,
    lengthField := if lengthReq then some data2.length else none,
    output := data2 }

/-- Claim C9: SAVE appends exactly one newline to the molded body before the
checksum, compression and base-64 steps run; a requested checksum is the
secure hash of exactly those pre-compression bytes, and the emitted body is
the optional gzip followed by the optional base-64 encoding of the same
newline-terminated bytes. -/
theorem save_body_newline_and_checksum (molded : List Nat)
    (secure_hash gz base64 : List Nat → List Nat)
    (checksumReq compressOpt methodScript lengthReq : Bool) :
    (save_body molded secure_hash gz base64
        checksumReq compressOpt methodScript lengthReq).checksum
      = (if checksumReq then some (secure_hash (molded ++ [saveNewline]))
         else none)
    ∧ (save_body molded secure_hash gz base64
        checksumReq compressOpt methodScript lengthReq).output
      = (if methodScript then base64 else id)
          ((if compressOpt then gz else id) (molded ++ [saveNewline])) := by
  cases compressOpt <;> cases methodScript <;>
    simp [save_body]

/-! ## Console driver loop (%host-main.c)

The host loop repeatedly invokes the HOST-CONSOLE action and executes the
instruction it returns: INTEGER! exits with that code, BLOCK! is
console-internal code, anything else (GROUP!) is user-facing code.  Both
kinds are run inside `Enable_Ctrl_C(); rebRescue(Run_Sandboxed_Code, code);
Disable_Ctrl_C();` — so Ctrl-C is live during either.  Only for a GROUP!
are the saved DO/APPLY hooks (`PG_Eval`/`PG_Dispatcher`, used by TRACE
et al.) restored before the run and saved-then-reset to the stock
`Eval_Core`/`Dispatcher_Core` afterwards; BLOCK! instructions always run on
the stock hooks.  The BLOCK! instructions are the console's own fixed
implementation code, so only GROUP! execution can install a new hook. -/

/-- Stock evaluator hook (`Eval_Core`/`Dispatcher_Core`). -/
def EVAL_CORE : Nat := 0

inductive HostInstr where
  | blockInstr
  | groupInstr (installs : Option Nat)
  | intInstr (code : Int)
deriving DecidableEq

/-- Record of one sandboxed execution: which instruction kind ran, whether
Ctrl-C was enabled while it ran, and which eval hook was active. -/
structure HostExec where
  isBlock : Bool
  ctrlC : Bool
  hook : Nat
deriving DecidableEq

/-- Hook bookkeeping across loop iterations: the live `PG_Eval` and the
`saved_eval_hook` local. -/
structure HostState where
  pgEval : Nat
  savedEval : Nat
deriving DecidableEq

/-- Console driver loop of `main` (%host-main.c lines 538-628), driven by
the sequence of instructions HOST-CONSOLE returns.  Produces the execution
trace and the exit status if an INTEGER! instruction is reached. -/
def host_console_loop : List HostInstr → HostState → List HostExec × Option Int
  | [], _ => ([], none)
  | .intInstr c :: _, _ => ([], some c)
  | .blockInstr :: rest, st =>
    -- console-internal: hooks left un-restored (stock hooks stay active);
    -- Enable_Ctrl_C / run / Disable_Ctrl_C
    let e : HostExec := { isBlock := true, ctrlC := true, hook := st.pgEval }
    let next := host_console_loop rest st
    (e :: next.1, next.2)
  | .groupInstr installs :: rest, st =>
    -- user-facing: PG_Eval = saved_eval_hook before the run; afterwards
    -- saved_eval_hook = PG_Eval (user code may have changed it) and
    -- PG_Eval = Eval_Core again
    let active := st.savedEval
    let e : HostExec := { isBlock := false, ctrlC := true, hook := active }
    let afterRun := match installs with
      | some h => h
      | none => active
    let next := host_console_loop rest { pgEval := EVAL_CORE, savedEval := afterRun }
    (e :: next.1, next.2)

/-- State at entry of the loop: before any user code has run, `PG_Eval` is
the stock hook and `saved_eval_hook` was just initialized from it. -/
def hostInit : HostState := { pgEval := EVAL_CORE, savedEval := EVAL_CORE }

/-- Counterexample to claim C6 as stated: a driver whose first instruction
is a BLOCK! has that block executed with Ctrl-C enabled (`Enable_Ctrl_C` is
called before `Run_Sandboxed_Code` for BLOCK! and GROUP! alike), against the
claim's "without enabling Ctrl-C interrupts". -/
theorem host_console_loop_block_runs_with_ctrl_c :
    host_console_loop [.blockInstr, .intInstr 0] hostInit
      = ([{ isBlock := true, ctrlC := true, hook := EVAL_CORE }], some 0) :=
  rfl

theorem host_console_loop_invariant (instrs : List HostInstr) (st : HostState)
    (hst : st.pgEval = EVAL_CORE) :
    ((host_console_loop instrs st).1.all
      (fun e => e.ctrlC && (!e.isBlock || e.hook == EVAL_CORE))) = true := by
  induction instrs generalizing st with
  | nil => rfl
  | cons i rest ih =>
    cases i with
    | intInstr c => rfl
    | blockInstr =>
      simp only [host_console_loop, List.all_cons, hst]
      rw [ih st hst]
      simp
    | groupInstr installs =>
      simp only [host_console_loop, List.all_cons]
      rw [ih { pgEval := EVAL_CORE, savedEval := _ } rfl]
      simp

/-- Claim C6 (amended): in the host loop, every instruction — BLOCK! and
GROUP! alike — executes with Ctrl-C enabled; BLOCK! instructions always run
on the stock (un-traced) evaluator hooks; a GROUP! runs with the saved user
hooks restored, and they are saved off and disabled again when control
returns to the driver (so a hook installed by one GROUP! is inactive during
a following BLOCK! and active again for the next GROUP!); an INTEGER!
instruction ends the loop with that exit status. -/
theorem host_console_loop_spec :
    (∀ instrs : List HostInstr,
      ((host_console_loop instrs hostInit).1.all
        (fun e => e.ctrlC && (!e.isBlock || e.hook == EVAL_CORE))) = true)
    ∧ (∀ (c : Int) (rest : List HostInstr) (st : HostState),
        host_console_loop (.intInstr c :: rest) st = ([], some c))
    ∧ host_console_loop
        [.groupInstr (some 7), .blockInstr, .groupInstr none, .intInstr 3]
        hostInit
      = ([{ isBlock := false, ctrlC := true, hook := EVAL_CORE },
          { isBlock := true, ctrlC := true, hook := EVAL_CORE },
          { isBlock := false, ctrlC := true, hook := 7 }], some 3) :=
  ⟨fun instrs => host_console_loop_invariant instrs hostInit rfl,
   fun _ _ _ => rfl,
   rfl⟩
